import Mathlib

/-!
Shallow embedding of the DEEL-style marketplace payments backend
(`src/app.js` plus the `validateDateRange` middleware).

Profiles, Contracts and Jobs mirror the sequelize data model; the store is
the triple of tables.  Each route handler becomes a pure function from the
store (plus request data) to an HTTP-level result together with the store
after the transaction committed (or the untouched store when it rolled
back).  Decimal amounts are modelled as rationals, timestamps and parsed
dates as integers.
-/

/-- A profile row: `{id, firstName, lastName, profession, balance, type}`. -/
structure Profile where
  id : Nat
  firstName : String
  lastName : String
  profession : String
  balance : ℚ
  ptype : String
  deriving Repr, DecidableEq

/-- A contract row: `{id, terms, status, ClientId, ContractorId}`. -/
structure Contract where
  id : Nat
  terms : String
  status : String
  ClientId : Nat
  ContractorId : Nat
  deriving Repr, DecidableEq

/-- A job row: `{id, description, price, ContractId, paid, paymentDate}`. -/
structure Job where
  id : Nat
  description : String
  price : ℚ
  ContractId : Nat
  paid : Bool
  paymentDate : Option Int
  deriving Repr, DecidableEq

/-- The relational store: the three tables, in row order. -/
structure Store where
  profiles : List Profile
  contracts : List Contract
  jobs : List Job
  deriving Repr, DecidableEq

/-- An HTTP-level outcome: a success `res.json({message})` with its status,
or an error `res.status(st).json({error})`. -/
inductive ApiResult where
  | ok (status : Nat) (message : String)
  | err (status : Nat) (error : String)
  deriving Repr, DecidableEq

/-- `Profile.findOne({where: {id}})`: first profile row with the given id. -/
def findProfile (s : Store) (pid : Nat) : Option Profile :=
  s.profiles.find? (fun p => p.id == pid)

/-- `Contract.findOne({where: {id}})`: first contract row with the given id. -/
def findContract (s : Store) (cid : Nat) : Option Contract :=
  s.contracts.find? (fun c => c.id == cid)

/-- First job row with the given id (primary-key lookup). -/
def findJobById (s : Store) (jid : Nat) : Option Job :=
  s.jobs.find? (fun j => j.id == jid)

/-- One row of the join in `POST /jobs/:job_id/pay`'s `Job.findOne`:
the job must have the requested id, be unpaid, and its contract must
exist with `ClientId` equal to the caller. -/
def payCandidate (s : Store) (jobId callerId : Nat) (j : Job) :
    Option (Job × Contract) :=
  if j.id = jobId ∧ j.paid = false then
    (findContract s j.ContractId).bind fun c =>
      if c.ClientId = callerId then some (j, c) else none
  else none

/-- The `Job.findOne` of `POST /jobs/:job_id/pay`: first row of the join. -/
def findPayableJob (s : Store) (jobId callerId : Nat) :
    Option (Job × Contract) :=
  (s.jobs.filterMap (payCandidate s jobId callerId)).head?

/-- `profile.update({balance: b})`: overwrite the balance of the rows with
the given id. -/
def updateBalance (s : Store) (pid : Nat) (b : ℚ) : Store :=
  { s with
    profiles := s.profiles.map fun p =>
      if p.id = pid then { p with balance := b } else p }

/-- `job.update({paid: true, paymentDate: new Date()})` on the job row. -/
def markPaid (s : Store) (jid : Nat) (now : Int) : Store :=
  { s with
    jobs := s.jobs.map fun j =>
      if j.id = jid then { j with paid := true, paymentDate := some now } else j }

/-- `POST /jobs/:job_id/pay`: resolve the caller (`getProfile`), load the
unpaid job joined to the caller's contract, check funds, load the
contractor, then debit, credit and mark paid in one transaction.  Every
error path rolls the transaction back, returning the store unchanged. -/
def payJob (s : Store) (callerId jobId : Nat) (now : Int) : ApiResult × Store :=
  match findProfile s callerId with
  | none => (.err 401 "Unauthenticated", s)
  | some caller =>
    match findPayableJob s jobId callerId with
    | none => (.err 404 "Job not found or already paid", s)
    | some (job, contract) =>
      if caller.balance < job.price then
        (.err 400 "Insufficient funds", s)
      else
        match findProfile s contract.ContractorId with
        | none => (.err 500 "Payment failed", s)
        | some contractor =>
          let s1 := updateBalance s callerId (caller.balance - job.price)
          let s2 := updateBalance s1 contract.ContractorId
            (contractor.balance + job.price)
          let s3 := markPaid s2 job.id now
          (.ok 200 "Payment successful", s3)

/-- The `Job.sum('price', …)` of the deposit route: total price of unpaid
jobs whose contract has `ClientId = userId` and `status = 'in_progress'`
(zero when no row matches). -/
def totalJobsToPay (s : Store) (userId : Nat) : ℚ :=
  (s.jobs.filter fun j =>
      !j.paid &&
      match findContract s j.ContractId with
      | some c => c.ClientId == userId && c.status == "in_progress"
      | none => false).foldl (fun acc j => acc + j.price) 0

/-- `POST /balances/deposit/:userId`: reject a negative amount, compute the
25% cap over the target's unpaid in-progress jobs, reject above the cap,
otherwise add `amount` to the balance of every profile row with the target
id (a no-op when none exists). -/
def deposit (s : Store) (userId : Nat) (amount : ℚ) : ApiResult × Store :=
  if amount < 0 then (.err 400 "Insufficient amount", s)
  else
    let maxDeposit := totalJobsToPay s userId * (0.25 : ℚ)
    if amount > maxDeposit then
      (.err 400 "Deposit amount exceeds 25% of total jobs to pay", s)
    else
      (.ok 200 "Deposit successful",
        { s with
          profiles := s.profiles.map fun p =>
            if p.id = userId then { p with balance := p.balance + amount } else p })

/-- The `validateDateRange` middleware.  JS `new Date` parsing is abstracted
by a `dparse` function returning `none` where JS yields `NaN`; the JS
falsiness of a missing or empty query parameter is modelled explicitly. -/
def validateDateRange (dparse : String → Option Int)
    (qstart qend : Option String) : Except (Nat × String) (Int × Int) :=
  match qstart, qend with
  | some st, some en =>
    if st = "" ∨ en = "" then
      .error (400, "Both start and end dates are required")
    else
      match dparse st, dparse en with
      | some sd, some ed =>
        if sd > ed then
          .error (400, "Start date must be before end date")
        else .ok (sd, ed)
      | _, _ => .error (400, "Invalid date format. Use YYYY-MM-DD")
  | _, _ => .error (400, "Both start and end dates are required")

/-- The `where: {paid: true, paymentDate: {[Op.between]: [start, end]}}`
filter shared by both admin queries: paid jobs whose payment date lies in
the inclusive window. -/
def paidJobsInWindow (s : Store) (lo hi : Int) : List Job :=
  s.jobs.filter fun j =>
    j.paid &&
      match j.paymentDate with
      | some d => decide (lo ≤ d) && decide (d ≤ hi)
      | none => false

/-- The `Contract.Contractor.profession` column of a job row under the
outer join of `GET /admin/best-profession` (`none` when the contract or
contractor row is missing). -/
def jobProfession (s : Store) (j : Job) : Option String :=
  (findContract s j.ContractId).bind fun c =>
    (findProfile s c.ContractorId).map fun p => p.profession

/-- The `group: ['Contract.Contractor.profession']` groups: the distinct
professions occurring among the matched jobs. -/
def professionGroups (s : Store) (lo hi : Int) : List (Option String) :=
  ((paidJobsInWindow s lo hi).map (jobProfession s)).dedup

/-- `SUM(price)` of one profession group. -/
def professionSum (s : Store) (lo hi : Int) (g : Option String) : ℚ :=
  ((paidJobsInWindow s lo hi).filter fun j => jobProfession s j == g).foldl
    (fun acc j => acc + j.price) 0

/-- Insert into a list kept in descending `key` order (stable, as a
deterministic reading of SQL `ORDER BY … DESC`). -/
def insertDescBy {α : Type} (key : α → ℚ) (a : α) : List α → List α
  | [] => [a]
  | x :: xs => if key x < key a then a :: x :: xs else x :: insertDescBy key a xs

/-- Sort into descending `key` order: the `ORDER BY SUM(price) DESC`. -/
def sortDescBy {α : Type} (key : α → ℚ) : List α → List α
  | [] => []
  | x :: xs => insertDescBy key x (sortDescBy key xs)

/-- The `findOne` over the grouped, descending-ordered rows of
`GET /admin/best-profession`: the first (maximal-sum) group, if any. -/
def bestProfessionGroup (s : Store) (lo hi : Int) : Option (Option String) :=
  (sortDescBy (professionSum s lo hi) (professionGroups s lo hi)).head?

/-- `GET /admin/best-profession`: validate the range, then respond with
`{profession: result?.profession}` (`none` both when no group matched and
when the winning group's profession is the null of the outer join). -/
def bestProfession (s : Store) (dparse : String → Option Int)
    (qstart qend : Option String) : Except (Nat × String) (Option String) :=
  match validateDateRange dparse qstart qend with
  | .error e => .error e
  | .ok (lo, hi) => .ok ((bestProfessionGroup s lo hi).bind id)

/-- One response entry of `GET /admin/best-clients`:
`{id, fullName, paid}`. -/
structure ClientRow where
  id : Nat
  fullName : String
  paid : ℚ
  deriving Repr, DecidableEq

/-- The inner join of `GET /admin/best-clients` (`required: true` on both
includes): each matched job paired with its contract's client profile. -/
def clientPairs (s : Store) (lo hi : Int) : List (Job × Profile) :=
  (paidJobsInWindow s lo hi).filterMap fun j =>
    ((findContract s j.ContractId).bind fun c => findProfile s c.ClientId).map
      fun p => (j, p)

/-- The `group: ['Contract.Client.id', …]` groups: distinct client ids of
the matched jobs. -/
def clientIds (s : Store) (lo hi : Int) : List Nat :=
  ((clientPairs s lo hi).map fun jp => jp.2.id).dedup

/-- `SUM(price)` of one client group. -/
def clientPaidSum (s : Store) (lo hi : Int) (cid : Nat) : ℚ :=
  ((clientPairs s lo hi).filter fun jp => jp.2.id == cid).foldl
    (fun acc jp => acc + jp.1.price) 0

/-- The grouped rows of `GET /admin/best-clients`, already mapped through
`{id, fullName: firstName + " " + lastName, paid}`, ordered by descending
sum. -/
def clientRows (s : Store) (lo hi : Int) : List ClientRow :=
  sortDescBy (fun r => r.paid)
    ((clientIds s lo hi).filterMap fun cid =>
      (findProfile s cid).map fun p =>
        ⟨cid, p.firstName ++ " " ++ p.lastName, clientPaidSum s lo hi cid⟩)

/-- The decimal core of JS `parseInt`: value of a nonempty digit sequence. -/
def digitsVal (cs : List Char) : Option Nat :=
  if cs = [] then none
  else some (cs.foldl (fun acc c => acc * 10 + (c.toNat - 48)) 0)

/-- JS `parseInt(str)` (decimal): skip leading spaces, optional sign, read
the leading digit run; `none` models `NaN`. -/
def parseIntJS (str : String) : Option Int :=
  match str.toList.dropWhile (fun c => c = ' ') with
  | '-' :: rest =>
    (digitsVal (rest.takeWhile fun c => c.isDigit)).map fun n => -(n : Int)
  | '+' :: rest =>
    (digitsVal (rest.takeWhile fun c => c.isDigit)).map fun n => (n : Int)
  | cs => (digitsVal (cs.takeWhile fun c => c.isDigit)).map fun n => (n : Int)

/-- `GET /admin/best-clients`: validate the range, resolve
`limit = 2` destructuring default then `parseInt(limit)`; a `NaN` limit
makes the store query itself fail (no handler catches it), a negative
`LIMIT` is no limit (sqlite), otherwise return the first `limit` ordered
group rows. -/
def bestClients (s : Store) (dparse : String → Option Int)
    (qstart qend limitQ : Option String) :
    Except (Nat × String) (List ClientRow) :=
  match validateDateRange dparse qstart qend with
  | .error e => .error e
  | .ok (lo, hi) =>
    match parseIntJS (limitQ.getD "2") with
    | none => .error (500, "Invalid limit")
    | some n =>
      if n < 0 then .ok (clientRows s lo hi)
      else .ok ((clientRows s lo hi).take n.toNat)

/-- Split a character list at dashes (structural, kernel-reducible). -/
def splitOnDash (cs : List Char) : List (List Char) :=
  match cs with
  | [] => [[]]
  | c :: rest =>
    let r := splitOnDash rest
    if c = '-' then [] :: r
    else
      match r with
      | [] => [[c]]
      | g :: gs => (c :: g) :: gs

/-- Value of an all-digit, nonempty character list. -/
def digitsOnlyVal (cs : List Char) : Option Nat :=
  if cs ≠ [] ∧ cs.all (fun c => c.isDigit) then
    some (cs.foldl (fun acc c => acc * 10 + (c.toNat - 48)) 0)
  else none

/-- A concrete `YYYY-MM-DD` date parser (value `y*10000 + m*100 + d`),
used to instantiate the abstract JS date parsing in concrete runs. -/
def dateNum (str : String) : Option Int :=
  match (splitOnDash str.toList).map (fun p => digitsOnlyVal p) with
  | [some y, some m, some d] =>
    some ((y : Int) * 10000 + (m : Int) * 100 + (d : Int))
  | _ => none

/-- Sample client profile (mirrors the seed used by the repo's tests). -/
def clientP : Profile :=
  { id := 1, firstName := "Test", lastName := "Client",
    profession := "Test Buyer", balance := 1000, ptype := "client" }

/-- Sample contractor profile. -/
def contractorP : Profile :=
  { id := 2, firstName := "Test", lastName := "Contractor",
    profession := "Test Worker", balance := 500, ptype := "contractor" }

/-- Sample in-progress contract between the two. -/
def contractA : Contract :=
  { id := 1, terms := "Test Contract", status := "in_progress",
    ClientId := 1, ContractorId := 2 }

/-- Sample unpaid job, price 300. -/
def jobU : Job :=
  { id := 1, description := "Test Job 1", price := 300,
    ContractId := 1, paid := false, paymentDate := none }

/-- Sample paid job, price 200, paid inside 2024. -/
def jobP : Job :=
  { id := 2, description := "Test Job 2", price := 200,
    ContractId := 1, paid := true, paymentDate := some 20240115 }

/-- Sample store with one unpaid and one paid job. -/
def sampleStore : Store :=
  { profiles := [clientP, contractorP], contracts := [contractA],
    jobs := [jobU, jobP] }

/-- Sample expensive unpaid job, price 2000. -/
def richJob : Job :=
  { id := 3, description := "Expensive Job", price := 2000,
    ContractId := 1, paid := false, paymentDate := none }

/-- Sample store whose only job is too expensive for the client. -/
def sampleStore2 : Store :=
  { profiles := [clientP, contractorP], contracts := [contractA],
    jobs := [richJob] }

/-- The empty store. -/
def emptyStore : Store := { profiles := [], contracts := [], jobs := [] }

/-! ### Helper lemmas about the store primitives -/

theorem find?_map_comm {α : Type} (f : α → α) (p : α → Bool)
    (hf : ∀ a, p (f a) = p a) (l : List α) :
    (l.map f).find? p = (l.find? p).map f := by
  rw [List.find?_map]
  have hpf : p ∘ f = p := funext hf
  rw [hpf]

theorem findProfile_updateBalance (s : Store) (pid : Nat) (b : ℚ) (qid : Nat) :
    findProfile (updateBalance s pid b) qid =
      (findProfile s qid).map fun p =>
        if p.id = pid then { p with balance := b } else p := by
  simp only [findProfile, updateBalance]
  exact find?_map_comm _ _ (fun p => by by_cases h : p.id = pid <;> simp [h]) _

theorem findProfile_markPaid (s : Store) (jid : Nat) (now : Int) (qid : Nat) :
    findProfile (markPaid s jid now) qid = findProfile s qid := rfl

theorem findJobById_updateBalance (s : Store) (pid : Nat) (b : ℚ) (qid : Nat) :
    findJobById (updateBalance s pid b) qid = findJobById s qid := rfl

theorem findJobById_markPaid (s : Store) (jid : Nat) (now : Int) (qid : Nat) :
    findJobById (markPaid s jid now) qid =
      (findJobById s qid).map fun j =>
        if j.id = jid then { j with paid := true, paymentDate := some now }
        else j := by
  simp only [findJobById, markPaid]
  exact find?_map_comm _ _ (fun j => by by_cases h : j.id = jid <;> simp [h]) _

theorem findProfile_id {s : Store} {pid : Nat} {p : Profile}
    (h : findProfile s pid = some p) : p.id = pid := by
  have := List.find?_some h
  simpa using this

theorem findPayableJob_some {s : Store} {jobId callerId : Nat} {j : Job}
    {c : Contract} (h : findPayableJob s jobId callerId = some (j, c)) :
    j ∈ s.jobs ∧ j.id = jobId ∧ j.paid = false ∧
      findContract s j.ContractId = some c ∧ c.ClientId = callerId := by
  unfold findPayableJob at h
  obtain ⟨a, ha, hpc⟩ :
      ∃ a ∈ s.jobs, payCandidate s jobId callerId a = some (j, c) := by
    cases hl : s.jobs.filterMap (payCandidate s jobId callerId) with
    | nil => rw [hl] at h; cases h
    | cons x xs =>
      rw [hl] at h
      have hx : x = (j, c) := by simpa using h
      subst hx
      exact List.mem_filterMap.mp (hl ▸ List.mem_cons_self (j, c) xs)
  unfold payCandidate at hpc
  by_cases hcond : a.id = jobId ∧ a.paid = false
  · rw [if_pos hcond] at hpc
    obtain ⟨c2, hc2, hif⟩ := Option.bind_eq_some.mp hpc
    by_cases hcl : c2.ClientId = callerId
    · rw [if_pos hcl] at hif
      have hj : a = j ∧ c2 = c := by
        have := Option.some.inj hif
        exact ⟨congrArg Prod.fst this, congrArg Prod.snd this⟩
      obtain ⟨rfl, rfl⟩ := hj
      exact ⟨ha, hcond.1, hcond.2, hc2, hcl⟩
    · rw [if_neg hcl] at hif; cases hif
  · rw [if_neg hcond] at hpc; cases hpc

theorem findPayableJob_eq_none (s : Store) (jobId callerId : Nat)
    (h : ∀ j ∈ s.jobs, j.id = jobId → j.paid = true) :
    findPayableJob s jobId callerId = none := by
  unfold findPayableJob
  have hnil : s.jobs.filterMap (payCandidate s jobId callerId) = [] := by
    rw [List.filterMap_eq_nil_iff]
    intro a ha
    unfold payCandidate
    refine if_neg ?_
    rintro ⟨h1, h2⟩
    have := h a ha h1
    rw [h2] at this
    cases this
  rw [hnil]
  rfl

theorem payJob_success_eq (s : Store) (callerId jobId : Nat) (now : Int)
    {caller contractor : Profile} {job : Job} {contract : Contract}
    (hc : findProfile s callerId = some caller)
    (hj : findPayableJob s jobId callerId = some (job, contract))
    (hbal : ¬ caller.balance < job.price)
    (hk : findProfile s contract.ContractorId = some contractor) :
    payJob s callerId jobId now =
      (.ok 200 "Payment successful",
        markPaid
          (updateBalance (updateBalance s callerId (caller.balance - job.price))
            contract.ContractorId (contractor.balance + job.price))
          job.id now) := by
  simp only [payJob, hc, hj, hk, if_neg hbal]

/-- C1: for every successful payment of an unpaid job by its contract's
client with sufficient balance (client and contractor being distinct, as
the data model requires), the response is `200 {message: "Payment
successful"}`, the committed store debits the client by exactly the job's
price, credits the contractor by exactly the price (a zero-sum transfer),
marks the job paid and sets its payment date. -/
theorem payJob_transfer_spec (s : Store) (callerId jobId : Nat) (now : Int)
    (caller contractor : Profile) (job : Job) (contract : Contract)
    (hc : findProfile s callerId = some caller)
    (hj : findPayableJob s jobId callerId = some (job, contract))
    (hbal : ¬ caller.balance < job.price)
    (hk : findProfile s contract.ContractorId = some contractor)
    (hne : callerId ≠ contract.ContractorId)
    (hjid : findJobById s jobId = some job) :
    (payJob s callerId jobId now).1 = .ok 200 "Payment successful" ∧
    findProfile (payJob s callerId jobId now).2 callerId =
      some { caller with balance := caller.balance - job.price } ∧
    findProfile (payJob s callerId jobId now).2 contract.ContractorId =
      some { contractor with balance := contractor.balance + job.price } ∧
    findJobById (payJob s callerId jobId now).2 jobId =
      some { job with paid := true, paymentDate := some now } ∧
    caller.balance - job.price + (contractor.balance + job.price) =
      caller.balance + contractor.balance := by
  have heq := payJob_success_eq s callerId jobId now hc hj hbal hk
  have hcid : caller.id = callerId := findProfile_id hc
  have hkid : contractor.id = contract.ContractorId := findProfile_id hk
  have hjid2 : job.id = jobId := (findPayableJob_some hj).2.1
  rw [heq]
  refine ⟨rfl, ?_, ?_, ?_, by ring⟩
  · rw [findProfile_markPaid, findProfile_updateBalance,
      findProfile_updateBalance, hc]
    simp [hcid, hne]
  · rw [findProfile_markPaid, findProfile_updateBalance,
      findProfile_updateBalance, hk]
    simp [hkid, Ne.symm hne]
  · rw [findJobById_markPaid, findJobById_updateBalance,
      findJobById_updateBalance, hjid]
    simp [hjid2]

/-- C1 witness: the spec scenario — client balance 1000, contractor 500,
job price 300 unpaid; after paying, client 1000−300, contractor 500+300,
job paid with payment date set. -/
theorem payJob_transfer_spec_witness :
    (payJob sampleStore 1 1 777).1 = .ok 200 "Payment successful" ∧
    findProfile (payJob sampleStore 1 1 777).2 1 =
      some { clientP with balance := clientP.balance - jobU.price } ∧
    findProfile (payJob sampleStore 1 1 777).2 contractA.ContractorId =
      some { contractorP with balance := contractorP.balance + jobU.price } ∧
    findJobById (payJob sampleStore 1 1 777).2 1 =
      some { jobU with paid := true, paymentDate := some 777 } ∧
    clientP.balance - jobU.price + (contractorP.balance + jobU.price) =
      clientP.balance + contractorP.balance :=
  payJob_transfer_spec sampleStore 1 1 777 clientP contractorP jobU contractA
    (by rfl) (by rfl) (by decide) (by rfl) (by decide) (by rfl)

/-- C2: a payment attempt whose join finds no row — the job is missing,
already paid, or the caller is not the `ClientId` of its contract — gets a
404 `JobNotFound` response with the store untouched; in particular, after
a successful payment, paying the same job again yields the 404 with the
store unchanged by the second call. -/
theorem payJob_notFound_spec (s : Store) (callerId jobId : Nat)
    (now now2 : Int) :
    (∀ caller, findProfile s callerId = some caller →
      findPayableJob s jobId callerId = none →
      payJob s callerId jobId now =
        (.err 404 "Job not found or already paid", s)) ∧
    (∀ caller contractor job contract,
      findProfile s callerId = some caller →
      findPayableJob s jobId callerId = some (job, contract) →
      ¬ caller.balance < job.price →
      findProfile s contract.ContractorId = some contractor →
      payJob (payJob s callerId jobId now).2 callerId jobId now2 =
        (.err 404 "Job not found or already paid",
          (payJob s callerId jobId now).2)) := by
  constructor
  · intro caller hc hnone
    simp only [payJob, hc, hnone]
  · intro caller contractor job contract hc hj hbal hk
    have heq := payJob_success_eq s callerId jobId now hc hj hbal hk
    have hjid2 : job.id = jobId := (findPayableJob_some hj).2.1
    rw [heq]
    set s3 := markPaid
      (updateBalance (updateBalance s callerId (caller.balance - job.price))
        contract.ContractorId (contractor.balance + job.price)) job.id now
      with hs3
    obtain ⟨c2, hc2⟩ : ∃ c2, findProfile s3 callerId = some c2 := by
      rw [hs3, findProfile_markPaid, findProfile_updateBalance,
        findProfile_updateBalance, hc]
      exact ⟨_, rfl⟩
    have hnone : findPayableJob s3 jobId callerId = none := by
      refine findPayableJob_eq_none s3 jobId callerId ?_
      intro j' hj' hid
      have hjobs : s3.jobs = s.jobs.map fun j =>
          if j.id = job.id then
            { j with paid := true, paymentDate := some now }
          else j := rfl
      rw [hjobs] at hj'
      obtain ⟨a, _, rfl⟩ := List.mem_map.mp hj'
      by_cases hcase : a.id = job.id
      · simp [hcase]
      · rw [if_neg hcase] at hid ⊢
        exact absurd (hid.trans hjid2.symm) hcase
    simp only [payJob, hc2, hnone]

/-- C2 witness: paying a nonexistent job id gives the 404 with the store
unchanged, and paying the sample job a second time after a successful
payment gives the 404 with the post-payment store unchanged. -/
theorem payJob_notFound_spec_witness :
    payJob sampleStore 1 999 5 =
      (.err 404 "Job not found or already paid", sampleStore) ∧
    payJob (payJob sampleStore 1 1 5).2 1 1 6 =
      (.err 404 "Job not found or already paid", (payJob sampleStore 1 1 5).2) := by
  constructor
  · exact (payJob_notFound_spec sampleStore 1 999 5 5).1 clientP (by rfl) (by rfl)
  · exact (payJob_notFound_spec sampleStore 1 1 5 6).2 clientP contractorP jobU
      contractA (by rfl) (by rfl) (by decide) (by rfl)

/-- C3: a payment attempt by the job's client whose balance is strictly
below the price is rejected with `400 InsufficientFunds` and rolls back:
the operation returns the store unchanged, so no balance or paid flag
moves. -/
theorem payJob_insufficientFunds_spec (s : Store) (callerId jobId : Nat)
    (now : Int) (caller : Profile) (job : Job) (contract : Contract)
    (hc : findProfile s callerId = some caller)
    (hj : findPayableJob s jobId callerId = some (job, contract))
    (hlt : caller.balance < job.price) :
    payJob s callerId jobId now = (.err 400 "Insufficient funds", s) := by
  simp only [payJob, hc, hj, if_pos hlt]

/-- C3 witness: the client with balance 1000 cannot pay the 2000-price
job; the call returns the 400 error and the untouched store. -/
theorem payJob_insufficientFunds_spec_witness :
    payJob sampleStore2 1 3 9 = (.err 400 "Insufficient funds", sampleStore2) :=
  payJob_insufficientFunds_spec sampleStore2 1 3 9 clientP richJob contractA
    (by rfl) (by rfl) (by decide)

theorem findProfile_deposit_map (s : Store) (userId : Nat) (amount : ℚ)
    (qid : Nat) :
    findProfile
      { s with
        profiles := s.profiles.map fun q =>
          if q.id = userId then { q with balance := q.balance + amount }
          else q } qid =
    (findProfile s qid).map fun q =>
      if q.id = userId then { q with balance := q.balance + amount } else q := by
  simp only [findProfile]
  exact find?_map_comm _ _ (fun q => by by_cases h : q.id = userId <;> simp [h]) _

/-- C4: for a nonnegative deposit amount, if the amount exceeds 25% of the
target's unpaid in-progress total the deposit is rejected with a 400 whose
message contains `"25%"` and the store is unchanged; otherwise it succeeds
with `200 {message: "Deposit successful"}` and the target's balance grows
by exactly the amount; in particular a zero unpaid total rejects every
positive deposit. -/
theorem deposit_cap_spec (s : Store) (userId : Nat) (amount : ℚ)
    (hpos : 0 ≤ amount) :
    (amount > totalJobsToPay s userId * 0.25 →
      ∃ pre post,
        deposit s userId amount = (.err 400 (pre ++ "25%" ++ post), s)) ∧
    (¬ amount > totalJobsToPay s userId * 0.25 →
      (deposit s userId amount).1 = .ok 200 "Deposit successful" ∧
      ∀ p, findProfile s userId = some p →
        findProfile (deposit s userId amount).2 userId =
          some { p with balance := p.balance + amount }) ∧
    (totalJobsToPay s userId = 0 → 0 < amount →
      ∃ pre post,
        deposit s userId amount = (.err 400 (pre ++ "25%" ++ post), s)) := by
  have hnotneg : ¬ amount < 0 := not_lt.mpr hpos
  have hrej : amount > totalJobsToPay s userId * 0.25 →
      ∃ pre post,
        deposit s userId amount = (.err 400 (pre ++ "25%" ++ post), s) := by
    intro hcap
    refine ⟨"Deposit amount exceeds ", " of total jobs to pay", ?_⟩
    simp only [deposit, if_neg hnotneg, if_pos hcap]
    rfl
  refine ⟨hrej, ?_, ?_⟩
  · intro hcap
    constructor
    · simp only [deposit, if_neg hnotneg, if_neg hcap]
    · intro p hp
      have hpid : p.id = userId := findProfile_id hp
      simp only [deposit, if_neg hnotneg, if_neg hcap]
      rw [findProfile_deposit_map, hp]
      simp [hpid]
  · intro htot hlt
    refine hrej ?_
    rw [htot, zero_mul]
    exact hlt

/-- C4 witness: with one unpaid in-progress job of price 300 the cap is
75; depositing 50 succeeds and raises the client's balance from 1000 to
1000 + 50. -/
theorem deposit_cap_spec_witness :
    ¬ (50:ℚ) > totalJobsToPay sampleStore 1 * 0.25 ∧
    (deposit sampleStore 1 50).1 = .ok 200 "Deposit successful" ∧
    findProfile (deposit sampleStore 1 50).2 1 =
      some { clientP with balance := clientP.balance + 50 } := by
  have hcap : ¬ (50:ℚ) > totalJobsToPay sampleStore 1 * 0.25 := by
    norm_num [totalJobsToPay, sampleStore, findContract, contractA, jobU, jobP]
  have h := ((deposit_cap_spec sampleStore 1 50 (by norm_num)).2.1 hcap)
  exact ⟨hcap, h.1, h.2 clientP (by rfl)⟩

/-- C5 counterexample: a deposit of amount 0 is not rejected — on the
empty store it returns `200 {message: "Deposit successful"}` rather than
the 400 `InvalidAmount` error the claim requires for every `amount ≤ 0`. -/
theorem deposit_zero_not_rejected_cex :
    deposit emptyStore 1 0 = (.ok 200 "Deposit successful", emptyStore) ∧
    (deposit emptyStore 1 0).1 ≠ .err 400 "Insufficient amount" := by
  have h : deposit emptyStore 1 0 = (.ok 200 "Deposit successful", emptyStore) := by
    norm_num [deposit, totalJobsToPay, emptyStore]
  exact ⟨h, by rw [h]; simp⟩

/-- C5 amended: only strictly negative amounts are rejected by the amount
check (`amount < 0`), before the store is read and with the store
unchanged; an amount of exactly zero passes the check and — the unpaid
total being nonnegative, as job prices are — commits as a successful
deposit that changes nothing. -/
theorem deposit_amount_check_spec (s : Store) (userId : Nat) (amount : ℚ) :
    (amount < 0 →
      deposit s userId amount = (.err 400 "Insufficient amount", s)) ∧
    (0 ≤ totalJobsToPay s userId →
      deposit s userId 0 = (.ok 200 "Deposit successful", s)) := by
  constructor
  · intro h
    simp only [deposit, if_pos h]
  · intro htot
    have h1 : ¬ (0:ℚ) < 0 := lt_irrefl 0
    have h2 : ¬ (0:ℚ) > totalJobsToPay s userId * 0.25 :=
      not_lt.mpr (mul_nonneg htot (by norm_num))
    simp only [deposit, if_neg h1, if_neg h2]
    have hfix : ∀ p ∈ s.profiles,
        (if p.id = userId then { p with balance := p.balance + 0 } else p) = p := by
      intro p _
      rcases p with ⟨i, f, l, pr, b, t⟩
      by_cases h : i = userId <;> simp [h]
    have hmap : (s.profiles.map fun p =>
        if p.id = userId then { p with balance := p.balance + 0 } else p) =
        s.profiles := by
      calc (s.profiles.map fun p =>
              if p.id = userId then { p with balance := p.balance + 0 } else p)
          = s.profiles.map id := List.map_congr_left hfix
        _ = s.profiles := List.map_id _
    rw [hmap]

/-- C5 witness: depositing −50 into the empty store is rejected as the
amount error with the store unchanged; depositing 0 commits successfully
and leaves the store unchanged. -/
theorem deposit_amount_check_spec_witness :
    deposit emptyStore 1 (-50) = (.err 400 "Insufficient amount", emptyStore) ∧
    deposit emptyStore 1 0 = (.ok 200 "Deposit successful", emptyStore) :=
  ⟨(deposit_amount_check_spec emptyStore 1 (-50)).1 (by decide),
   (deposit_amount_check_spec emptyStore 1 0).2
     (le_of_eq (show (0:ℚ) = totalJobsToPay emptyStore 1 from rfl))⟩

/-- C10: a deposit whose target id matches no profile, with an amount that
passes the negative-amount check and the 25% cap (for a nonexistent user
only amount 0 can), returns `200 {message: "Deposit successful"}` while
changing no profile at all: the store is returned unchanged. -/
theorem deposit_missing_user_spec (s : Store) (userId : Nat) (amount : ℚ)
    (hmiss : findProfile s userId = none)
    (hneg : ¬ amount < 0)
    (hcap : ¬ amount > totalJobsToPay s userId * 0.25) :
    deposit s userId amount = (.ok 200 "Deposit successful", s) := by
  simp only [deposit, if_neg hneg, if_neg hcap]
  have hm2 : s.profiles.find? (fun p => p.id == userId) = none := hmiss
  have hno : ∀ p ∈ s.profiles, ¬ (p.id == userId) = true :=
    List.find?_eq_none.mp hm2
  have hfix : ∀ p ∈ s.profiles,
      (if p.id = userId then { p with balance := p.balance + amount } else p)
        = p := by
    intro p hp
    rw [if_neg]
    intro h
    exact hno p hp (by simp [h])
  have hmap : (s.profiles.map fun p =>
      if p.id = userId then { p with balance := p.balance + amount } else p) =
      s.profiles := by
    calc (s.profiles.map fun p =>
            if p.id = userId then { p with balance := p.balance + amount }
            else p)
        = s.profiles.map id := List.map_congr_left hfix
      _ = s.profiles := List.map_id _
  rw [hmap]

/-- C10 witness: a zero deposit to the id 7, unknown to the sample store,
succeeds with the store unchanged. -/
theorem deposit_missing_user_spec_witness :
    deposit sampleStore 7 0 = (.ok 200 "Deposit successful", sampleStore) :=
  deposit_missing_user_spec sampleStore 7 0 (by rfl) (by decide)
    (by rw [show totalJobsToPay sampleStore 7 = (0:ℚ) from rfl, zero_mul]
        exact lt_irrefl 0)

/-! ### Sorting lemmas for the `ORDER BY … DESC` model -/

theorem mem_insertDescBy {α : Type} (key : α → ℚ) (a b : α) (l : List α) :
    b ∈ insertDescBy key a l ↔ b = a ∨ b ∈ l := by
  induction l with
  | nil => simp [insertDescBy]
  | cons x xs ih =>
    simp only [insertDescBy]
    split
    · simp [List.mem_cons]
    · simp only [List.mem_cons, ih]
      tauto

theorem mem_sortDescBy {α : Type} (key : α → ℚ) (b : α) (l : List α) :
    b ∈ sortDescBy key l ↔ b ∈ l := by
  induction l with
  | nil => simp [sortDescBy]
  | cons x xs ih =>
    simp only [sortDescBy, mem_insertDescBy, ih, List.mem_cons]

theorem pairwise_insertDescBy {α : Type} (key : α → ℚ) (a : α) (l : List α)
    (h : l.Pairwise fun x y => key y ≤ key x) :
    (insertDescBy key a l).Pairwise fun x y => key y ≤ key x := by
  induction l with
  | nil => simp [insertDescBy]
  | cons x xs ih =>
    rw [List.pairwise_cons] at h
    obtain ⟨hx, hxs⟩ := h
    simp only [insertDescBy]
    split
    · rename_i hlt
      rw [List.pairwise_cons]
      refine ⟨?_, List.pairwise_cons.mpr ⟨hx, hxs⟩⟩
      intro y hy
      rcases List.mem_cons.mp hy with rfl | hy2
      · exact le_of_lt hlt
      · exact le_trans (hx y hy2) (le_of_lt hlt)
    · rename_i hge
      rw [List.pairwise_cons]
      refine ⟨?_, ih hxs⟩
      intro y hy
      rcases (mem_insertDescBy key a y xs).mp hy with rfl | hy2
      · exact not_lt.mp hge
      · exact hx y hy2

theorem pairwise_sortDescBy {α : Type} (key : α → ℚ) (l : List α) :
    (sortDescBy key l).Pairwise fun x y => key y ≤ key x := by
  induction l with
  | nil => simp [sortDescBy]
  | cons x xs ih => exact pairwise_insertDescBy key x _ ih

theorem head?_sortDescBy_max {α : Type} (key : α → ℚ) (l : List α) (b : α)
    (h : (sortDescBy key l).head? = some b) :
    b ∈ l ∧ ∀ x ∈ l, key x ≤ key b := by
  cases hs : sortDescBy key l with
  | nil => rw [hs] at h; cases h
  | cons y ys =>
    rw [hs] at h
    have hyb : y = b := by simpa using h
    subst hyb
    constructor
    · exact (mem_sortDescBy key y l).mp (hs ▸ List.mem_cons_self y ys)
    · intro x hx
      have hx2 : x ∈ sortDescBy key l := (mem_sortDescBy key x l).mpr hx
      rw [hs] at hx2
      rcases List.mem_cons.mp hx2 with rfl | hmem
      · exact le_refl _
      · have hp := pairwise_sortDescBy key l
        rw [hs, List.pairwise_cons] at hp
        exact hp.1 x hmem

/-- C6: any best-profession or best-clients call whose `start` or `end`
fails to parse as a date, or whose parsed `start` is after `end`, is
rejected by the middleware with a 400 error — neither handler runs, so no
(partial) data is returned. -/
theorem invalidDateRange_spec (s : Store) (dparse : String → Option Int)
    (st en : String) (limitQ : Option String)
    (hbad : dparse st = none ∨ dparse en = none ∨
      ∃ a b, dparse st = some a ∧ dparse en = some b ∧ a > b) :
    (∃ m, bestProfession s dparse (some st) (some en) = .error (400, m)) ∧
    (∃ m, bestClients s dparse (some st) (some en) limitQ = .error (400, m)) := by
  have key : ∃ m,
      validateDateRange dparse (some st) (some en) = .error (400, m) := by
    by_cases hemp : st = "" ∨ en = ""
    · refine ⟨"Both start and end dates are required", ?_⟩
      simp only [validateDateRange, if_pos hemp]
    · cases hst : dparse st with
      | none =>
        cases hen : dparse en with
        | none =>
          refine ⟨"Invalid date format. Use YYYY-MM-DD", ?_⟩
          simp only [validateDateRange, if_neg hemp, hst, hen]
        | some b =>
          refine ⟨"Invalid date format. Use YYYY-MM-DD", ?_⟩
          simp only [validateDateRange, if_neg hemp, hst, hen]
      | some a =>
        cases hen : dparse en with
        | none =>
          refine ⟨"Invalid date format. Use YYYY-MM-DD", ?_⟩
          simp only [validateDateRange, if_neg hemp, hst, hen]
        | some b =>
          rcases hbad with h1 | h2 | ⟨a2, b2, ha2, hb2, hab⟩
          · rw [hst] at h1; cases h1
          · rw [hen] at h2; cases h2
          · rw [hst] at ha2
            rw [hen] at hb2
            obtain rfl : a = a2 := Option.some.inj ha2
            obtain rfl : b = b2 := Option.some.inj hb2
            refine ⟨"Start date must be before end date", ?_⟩
            simp only [validateDateRange, if_neg hemp, hst, hen, if_pos hab]
  obtain ⟨m, hm⟩ := key
  constructor
  · exact ⟨m, by simp only [bestProfession, hm]⟩
  · exact ⟨m, by simp only [bestClients, hm]⟩

/-- C6 witness: `"invalid-date"` does not parse, so both admin queries on
the sample store answer with a 400 error. -/
theorem invalidDateRange_spec_witness :
    dateNum "invalid-date" = none ∧
    (∃ m, bestProfession sampleStore dateNum (some "invalid-date")
      (some "2024-12-31") = .error (400, m)) ∧
    (∃ m, bestClients sampleStore dateNum (some "invalid-date")
      (some "2024-12-31") none = .error (400, m)) := by
  have h := invalidDateRange_spec sampleStore dateNum "invalid-date"
    "2024-12-31" none (Or.inl (by rfl))
  exact ⟨by rfl, h.1, h.2⟩

/-- C9: with a valid date range, if no paid job falls in the inclusive
window the best-profession response carries no profession (`none`); and
whenever it answers with a profession, that profession is one of the
grouped contractor professions of the matched jobs and its summed price is
maximal among all groups. -/
theorem bestProfession_spec (s : Store) (dparse : String → Option Int)
    (qstart qend : Option String) (lo hi : Int)
    (hv : validateDateRange dparse qstart qend = .ok (lo, hi)) :
    (paidJobsInWindow s lo hi = [] →
      bestProfession s dparse qstart qend = .ok none) ∧
    (∀ p : String, bestProfession s dparse qstart qend = .ok (some p) →
      some p ∈ professionGroups s lo hi ∧
      ∀ g ∈ professionGroups s lo hi,
        professionSum s lo hi g ≤ professionSum s lo hi (some p)) := by
  constructor
  · intro hempty
    have hg : professionGroups s lo hi = [] := by
      simp [professionGroups, hempty]
    simp [bestProfession, hv, bestProfessionGroup, hg, sortDescBy]
  · intro p hp
    simp only [bestProfession, hv] at hp
    have hp2 : (bestProfessionGroup s lo hi).bind id = some p := Except.ok.inj hp
    cases hbg : bestProfessionGroup s lo hi with
    | none => rw [hbg] at hp2; cases hp2
    | some g =>
      rw [hbg] at hp2
      have hgp : g = some p := hp2
      subst hgp
      exact head?_sortDescBy_max (professionSum s lo hi)
        (professionGroups s lo hi) (some p) hbg

/-- C9 witness: in the sample store the only 2024 paid job belongs to the
"Test Worker" contractor, and the answer's group is sum-maximal. -/
theorem bestProfession_spec_witness :
    validateDateRange dateNum (some "2024-01-01") (some "2024-12-31") =
      .ok (20240101, 20241231) ∧
    bestProfession sampleStore dateNum (some "2024-01-01")
      (some "2024-12-31") = .ok (some "Test Worker") ∧
    (some "Test Worker" ∈ professionGroups sampleStore 20240101 20241231 ∧
      ∀ g ∈ professionGroups sampleStore 20240101 20241231,
        professionSum sampleStore 20240101 20241231 g ≤
          professionSum sampleStore 20240101 20241231 (some "Test Worker")) := by
  have hv : validateDateRange dateNum (some "2024-01-01") (some "2024-12-31") =
      .ok (20240101, 20241231) := by rfl
  have hbp : bestProfession sampleStore dateNum (some "2024-01-01")
      (some "2024-12-31") = .ok (some "Test Worker") := by rfl
  exact ⟨hv, hbp,
    (bestProfession_spec sampleStore dateNum (some "2024-01-01")
      (some "2024-12-31") 20240101 20241231 hv).2 "Test Worker" hbp⟩

/-- C7 counterexample: a non-numeric `limit` does not fall back to the
default of 2 — `parseInt` yields `NaN`, the store query fails, and the
call errors out instead of answering with a list of at most 2 clients. -/
theorem bestClients_nan_limit_cex :
    bestClients sampleStore dateNum (some "2024-01-01") (some "2024-12-31")
      (some "abc") = .error (500, "Invalid limit") := by rfl

/-- C7 amended: at most `limit` clients are returned, where the limit is 2
when the query parameter is missing and a supplied nonnegative integer
limit overrides it; a non-numeric limit however parses to `NaN` and makes
the query fail instead of falling back to the default. -/
theorem bestClients_limit_spec (s : Store) (dparse : String → Option Int)
    (qstart qend limitQ : Option String) (lo hi : Int)
    (hv : validateDateRange dparse qstart qend = .ok (lo, hi)) :
    (limitQ = none →
      ∃ rows, bestClients s dparse qstart qend limitQ = .ok rows ∧
        rows.length ≤ 2) ∧
    (∀ str n, limitQ = some str → parseIntJS str = some n → 0 ≤ n →
      ∃ rows, bestClients s dparse qstart qend limitQ = .ok rows ∧
        rows.length ≤ n.toNat) ∧
    (∀ str, limitQ = some str → parseIntJS str = none →
      bestClients s dparse qstart qend limitQ =
        .error (500, "Invalid limit")) := by
  refine ⟨?_, ?_, ?_⟩
  · rintro rfl
    refine ⟨(clientRows s lo hi).take 2, ?_, List.length_take_le 2 _⟩
    simp only [bestClients, hv, Option.getD,
      show parseIntJS "2" = some 2 from rfl]
    rw [if_neg (by norm_num : ¬ (2:Int) < 0)]
    rfl
  · rintro str n rfl hn hn0
    refine ⟨(clientRows s lo hi).take n.toNat, ?_, List.length_take_le _ _⟩
    simp only [bestClients, hv, Option.getD, hn]
    rw [if_neg (not_lt.mpr hn0)]
  · rintro str rfl hn
    simp only [bestClients, hv, Option.getD, hn]

/-- C7 witness: a missing limit answers with at most 2 clients, and the
non-numeric limit `"abc"` makes the call fail. -/
theorem bestClients_limit_spec_witness :
    (∃ rows, bestClients sampleStore dateNum (some "2024-01-01")
      (some "2024-12-31") none = .ok rows ∧ rows.length ≤ 2) ∧
    (∃ rows, bestClients sampleStore dateNum (some "2024-01-01")
      (some "2024-12-31") (some "5") = .ok rows ∧
        rows.length ≤ (5:Int).toNat) := by
  have h := bestClients_limit_spec sampleStore dateNum (some "2024-01-01")
    (some "2024-12-31") none 20240101 20241231 (by rfl)
  have h2 := bestClients_limit_spec sampleStore dateNum (some "2024-01-01")
    (some "2024-12-31") (some "5") 20240101 20241231 (by rfl)
  exact ⟨h.1 rfl, h2.2.1 "5" 5 rfl (by rfl) (by norm_num)⟩

/-- C8: with a valid date range, every successful best-clients response is
ordered by descending summed price, and each returned entry is a client of
some paid job in the window, exposing the client's profile id, the full
name `firstName ++ " " ++ lastName`, and that client's summed price. -/
theorem bestClients_rows_spec (s : Store) (dparse : String → Option Int)
    (qstart qend limitQ : Option String) (lo hi : Int) (rows : List ClientRow)
    (hv : validateDateRange dparse qstart qend = .ok (lo, hi))
    (hrows : bestClients s dparse qstart qend limitQ = .ok rows) :
    rows.Pairwise (fun a b => b.paid ≤ a.paid) ∧
    ∀ r ∈ rows, r.id ∈ clientIds s lo hi ∧
      ∃ p, findProfile s r.id = some p ∧
        r.fullName = p.firstName ++ " " ++ p.lastName ∧
        r.paid = clientPaidSum s lo hi r.id := by
  have hsub : rows.Sublist (clientRows s lo hi) := by
    simp only [bestClients, hv] at hrows
    cases hn : parseIntJS (limitQ.getD "2") with
    | none => simp only [hn] at hrows; cases hrows
    | some n =>
      simp only [hn] at hrows
      by_cases hneg : n < 0
      · rw [if_pos hneg] at hrows
        rw [(Except.ok.inj hrows).symm]
      · rw [if_neg hneg] at hrows
        rw [(Except.ok.inj hrows).symm]
        exact List.take_sublist _ _
  constructor
  · exact List.Pairwise.sublist hsub
      (pairwise_sortDescBy (fun q : ClientRow => q.paid) _)
  · intro r hr
    have hr2 : r ∈ sortDescBy (fun q : ClientRow => q.paid)
        ((clientIds s lo hi).filterMap fun cid =>
          (findProfile s cid).map fun p =>
            ⟨cid, p.firstName ++ " " ++ p.lastName,
              clientPaidSum s lo hi cid⟩) :=
      List.Sublist.mem hr hsub
    have hr3 := (mem_sortDescBy (fun q : ClientRow => q.paid) r _).mp hr2
    obtain ⟨cid, hcid, hmap⟩ := List.mem_filterMap.mp hr3
    obtain ⟨p, hp, hpr⟩ := Option.map_eq_some'.mp hmap
    subst hpr
    exact ⟨hcid, p, hp, rfl, rfl⟩

/-- C8 witness: on the sample store the single 2024 paid job groups into
one row for the client profile, with the full name and the summed price;
the row list is trivially ordered and each entry satisfies the shape. -/
theorem bestClients_rows_spec_witness :
    bestClients sampleStore dateNum (some "2024-01-01") (some "2024-12-31")
      none =
      .ok [⟨1, "Test Client", clientPaidSum sampleStore 20240101 20241231 1⟩] ∧
    ([⟨1, "Test Client", clientPaidSum sampleStore 20240101 20241231 1⟩] :
        List ClientRow).Pairwise (fun a b => b.paid ≤ a.paid) ∧
    ∀ r ∈ ([⟨1, "Test Client",
        clientPaidSum sampleStore 20240101 20241231 1⟩] : List ClientRow),
      r.id ∈ clientIds sampleStore 20240101 20241231 ∧
      ∃ p, findProfile sampleStore r.id = some p ∧
        r.fullName = p.firstName ++ " " ++ p.lastName ∧
        r.paid = clientPaidSum sampleStore 20240101 20241231 r.id := by
  have hrows : bestClients sampleStore dateNum (some "2024-01-01")
      (some "2024-12-31") none =
      .ok [⟨1, "Test Client",
        clientPaidSum sampleStore 20240101 20241231 1⟩] := by rfl
  have h := bestClients_rows_spec sampleStore dateNum (some "2024-01-01")
    (some "2024-12-31") none 20240101 20241231
    [⟨1, "Test Client", clientPaidSum sampleStore 20240101 20241231 1⟩]
    (by rfl) hrows
  exact ⟨hrows, h.1, h.2⟩
